import Mathlib

/-!
Verification of the lint-fix orchestration engine of the sqruff linter
(`crates/lib/src/core/linter/linter.rs`), shallowly embedded in Lean.
External collaborators (templater, lexer, parser, the segment tree's
`apply_fixes` method and each rule's `crawl` method) are trait objects in
the source and are modelled here as explicit function parameters, so every
theorem quantifies over their behaviour.
-/

namespace Sqruff

/-- The dialect handle. Its contents are irrelevant to the engine, which only
threads it through to collaborators, so it is modelled as a unit value. -/
def Dialect : Type := Unit

/-- Selector `dialect_selector("ansi")` in the source always succeeds for the builtin
dialect; the engine immediately unwraps the result. -/
def dialect_selector (_name : String) : Option Dialect :=
  some ()

/-- A linting violation produced by a rule crawl (`SQLLintError`). -/
structure SQLLintError where
  description : String
deriving DecidableEq

/-- A lexer violation (`SQLLexError`). -/
structure SQLLexError where
  message : String
deriving DecidableEq

/-- A parser violation (`SQLParseError`). -/
structure SQLParseError where
  message : String
deriving DecidableEq

/-- A user-facing configuration error (`SQLFluffUserError`). -/
structure SQLFluffUserError where
  message : String
deriving DecidableEq

/-- A templater violation (`SQLTemplaterError`). -/
structure SQLTemplaterError where
  message : String
deriving DecidableEq

/-- The erased `SqlError` trait object stored in `ParsedString::violations`. -/
inductive SqlError where
  | lexErr (message : String)
  | parseErr (message : String)
  | templaterErr (message : String)
deriving DecidableEq

/-- The `Into` conversion used in `parse_rendered` when extending the
violation list with parser errors. -/
def SQLParseError.intoSqlError (e : SQLParseError) : SqlError :=
  SqlError.parseErr e.message

/-- Outcomes of the Rust panicking macros reached by this module:
`assert!` failures, `unimplemented!()` stubs and explicit `panic!` calls. -/
inductive Panic where
  | assertionFailed
  | unimplemented (site : String)
  | panicked (message : String)
deriving DecidableEq

/-- A proposed edit anchored to one tree node (`LintFix`). The source calls
`fix.anchor.get_uuid().unwrap()`; the anchor identifier is modelled as the
bare uuid, a natural number. -/
structure LintFix where
  anchor_uuid : Nat
deriving DecidableEq

/-- The per-anchor aggregation of fixes (`HashMap<Uuid, AnchorEditInfo>`),
modelled as an association list from anchor uuid to the fixes added to that
anchor, in insertion order. -/
def AnchorEditInfoMap : Type := List (Nat × List LintFix)

/-- One `anchor_info.entry(anchor_id).or_insert_with(default).add(fix)` step. -/
def anchorInfoAdd (m : AnchorEditInfoMap) (anchor_id : Nat) (fix : LintFix) :
    AnchorEditInfoMap :=
  match m with
  | [] => [(anchor_id, [fix])]
  | (k, fixes) :: rest =>
    if k == anchor_id then (k, fixes ++ [fix]) :: rest
    else (k, fixes) :: anchorInfoAdd rest anchor_id fix

/-- Function `compute_anchor_edit_info`: group a batch of fixes by anchor uuid. -/
def compute_anchor_edit_info (fixes : List LintFix) : AnchorEditInfoMap :=
  fixes.foldl (fun anchor_info fix => anchorInfoAdd anchor_info fix.anchor_uuid fix) []

/-- The configuration snapshot (`FluffConfig`). Only the fields the linter
module consults are modelled: the configured SQL file extensions and the
resolved dialect (queried by `verify_dialect_specified`). -/
structure FluffConfig where
  dialect : Option String := some "ansi"
  sql_file_exts : List String := [".sql"]
deriving DecidableEq

/-- Modelled from the spec: `FluffConfig::verify_dialect_specified` lives in
the config module, outside this source file; the spec says "verify a dialect
is resolvable (fatal, user-facing error if not)". -/
def verify_dialect_specified (config : FluffConfig) : Option SQLFluffUserError :=
  match config.dialect with
  | some _ => none
  | none => some { message := "No dialect was specified" }

/-- The erased rule trait object (`ErasedRule`): its static metadata
(`lint_phase`, `is_fix_compatible`) plus its `crawl` capability, which
returns the violations found and the fixes proposed for the given tree.
`T` is the segment-tree type. -/
structure ErasedRule (T : Type) where
  lint_phase : String
  is_fix_compatible : Bool
  crawl : Dialect → Bool → T → FluffConfig → List SQLLintError × List LintFix

/-- The mutable state of `lint_fix_parsed`: the working tree and the
accumulated first-pass linting errors. -/
structure LoopState (T : Type) where
  tree : T
  initial_linting_errors : List SQLLintError

/-- The body of the per-rule loop of `lint_fix_parsed`, without the skip
short-circuit: crawl the rule, aggregate its fixes by anchor, record its
violations when this is the first pass of the run, and when fixing and the
rule proposed fixes, call `apply_fixes` and unconditionally adopt the
returned tree (the source binds the `is_valid` flag but its only use is a
diagnostic guarded by `if !true`, which never runs). The second component
of the accumulator is the pass's `changed` flag. -/
def runPassStep {T : Type}
    (applyFixes : T → Dialect → AnchorEditInfoMap → T × Nat × Nat × Bool)
    (dialect : Dialect) (config : FluffConfig) (fix is_first_linter_pass : Bool)
    (acc : LoopState T × Bool) (rule : ErasedRule T) : LoopState T × Bool :=
  let st := acc.1
  let crawled := rule.crawl dialect fix st.tree config
  let linting_errors := crawled.1
  let fixes := crawled.2
  let anchor_info := compute_anchor_edit_info fixes
  let st :=
    if is_first_linter_pass then
      { st with initial_linting_errors := st.initial_linting_errors ++ linting_errors }
    else st
  if fix && !fixes.isEmpty then
    let applied := applyFixes st.tree dialect anchor_info
    ({ st with tree := applied.1 }, true)
  else (st, acc.2)

/-- One pass of `lint_fix_parsed`: run every rule of the phase in declared
order, skipping fix-incompatible rules once fixing is active and this is not
the very first pass of the run. Returns the updated state and the pass's
`changed` flag (initially `false`). -/
def runPass {T : Type}
    (applyFixes : T → Dialect → AnchorEditInfoMap → T × Nat × Nat × Bool)
    (dialect : Dialect) (config : FluffConfig) (fix is_first_linter_pass : Bool)
    (rules_this_phase : List (ErasedRule T)) (st : LoopState T) : LoopState T × Bool :=
  rules_this_phase.foldl
    (fun acc rule =>
      if fix && !is_first_linter_pass && !rule.is_fix_compatible then acc
      else runPassStep applyFixes dialect config fix is_first_linter_pass acc rule)
    (st, false)

/-- The rules whose `crawl` is actually invoked in one pass: exactly those
not discarded by the `continue` short-circuit of the source. -/
def runPassInvoked {T : Type} (fix is_first_linter_pass : Bool)
    (rules_this_phase : List (ErasedRule T)) : List (ErasedRule T) :=
  rules_this_phase.filter
    (fun rule => !(fix && !is_first_linter_pass && !rule.is_fix_compatible))

/-- The `for loop_ in 0..cap` loop of one phase: run passes until the cap is
exhausted, breaking after any pass that made no change while fixing.
The first argument of the recursion is the number of remaining passes, the
second the current `loop_` index. -/
def runLoops {T : Type}
    (applyFixes : T → Dialect → AnchorEditInfoMap → T × Nat × Nat × Bool)
    (dialect : Dialect) (config : FluffConfig) (fix phase_is_first : Bool)
    (rules_this_phase : List (ErasedRule T)) :
    Nat → Nat → LoopState T → LoopState T
  | 0, _, st => st
  | n + 1, loop_, st =>
    let is_first_linter_pass := phase_is_first && loop_ == 0
    let passed := runPass applyFixes dialect config fix is_first_linter_pass
      rules_this_phase st
    if fix && !passed.2 then passed.1
    else runLoops applyFixes dialect config fix phase_is_first rules_this_phase
      n (loop_ + 1) passed.1

/-- Method `Linter::lint_fix_parsed`: the multi-phase convergence loop. Phases are
`["main", "post"]` when fixing, `["main"]` otherwise; the `main` phase is
capped at `loop_limit` (10 when fixing, 1 otherwise) and the `post` phase at
2 passes; when more than one phase is active each phase runs only the rules
declaring that phase. Returns the final tree and the first-pass linting
errors. -/
def lint_fix_parsed {T : Type}
    (applyFixes : T → Dialect → AnchorEditInfoMap → T × Nat × Nat × Bool)
    (config : FluffConfig) (tree : T) (rules : List (ErasedRule T)) (fix : Bool) :
    T × List SQLLintError :=
  let phases : List String := if fix then ["main", "post"] else ["main"]
  let dialect : Dialect := (dialect_selector "ansi").getD ()
  let loop_limit : Nat := if fix then 10 else 1
  let final := phases.foldl
    (fun st phase =>
      let rules_this_phase :=
        if phases.length > 1 then
          rules.filter (fun rule => rule.lint_phase == phase)
        else rules
      let cap := if phase == "main" then loop_limit else 2
      runLoops applyFixes dialect config fix (phase == phases.headD "")
        rules_this_phase cap 0 st)
    { tree := tree, initial_linting_errors := [] }
  (final.tree, final.initial_linting_errors)

/-- The phase loop instrumented with a pass counter: identical recursion to
`runLoops`, additionally returning how many passes were executed. -/
def runLoopsCounted {T : Type}
    (applyFixes : T → Dialect → AnchorEditInfoMap → T × Nat × Nat × Bool)
    (dialect : Dialect) (config : FluffConfig) (fix phase_is_first : Bool)
    (rules_this_phase : List (ErasedRule T)) :
    Nat → Nat → LoopState T → LoopState T × Nat
  | 0, _, st => (st, 0)
  | n + 1, loop_, st =>
    let is_first_linter_pass := phase_is_first && loop_ == 0
    let passed := runPass applyFixes dialect config fix is_first_linter_pass
      rules_this_phase st
    if fix && !passed.2 then (passed.1, 1)
    else
      let rest := runLoopsCounted applyFixes dialect config fix phase_is_first
        rules_this_phase n (loop_ + 1) passed.1
      (rest.1, rest.2 + 1)

/-- Variant of `lint_fix_parsed` instrumented with the number of passes executed by the
`main` phase and by the `post` phase. -/
def lint_fix_parsed_passes {T : Type}
    (applyFixes : T → Dialect → AnchorEditInfoMap → T × Nat × Nat × Bool)
    (config : FluffConfig) (tree : T) (rules : List (ErasedRule T)) (fix : Bool) :
    (T × List SQLLintError) × Nat × Nat :=
  let dialect : Dialect := (dialect_selector "ansi").getD ()
  let loop_limit : Nat := if fix then 10 else 1
  if fix then
    let rules_main := rules.filter (fun rule => rule.lint_phase == "main")
    let mainRun := runLoopsCounted applyFixes dialect config fix true rules_main
      loop_limit 0 { tree := tree, initial_linting_errors := [] }
    let rules_post := rules.filter (fun rule => rule.lint_phase == "post")
    let postRun := runLoopsCounted applyFixes dialect config fix false rules_post
      2 0 mainRun.1
    ((postRun.1.tree, postRun.1.initial_linting_errors), mainRun.2, postRun.2)
  else
    let mainRun := runLoopsCounted applyFixes dialect config fix true rules
      loop_limit 0 { tree := tree, initial_linting_errors := [] }
    ((mainRun.1.tree, mainRun.1.initial_linting_errors), mainRun.2, 0)

/-- An `apply_fixes` collaborator that always reports the rewrite as invalid
(`is_valid = false`) while producing a new tree (the successor). -/
def invalidApplyFixes : Nat → Dialect → AnchorEditInfoMap → Nat × Nat × Nat × Bool :=
  fun tree _ _ => (tree + 1, 0, 0, false)

/-- A main-phase rule that always proposes one fix and reports no
violations. -/
def alwaysFixRule : ErasedRule Nat :=
  { lint_phase := "main"
    is_fix_compatible := true
    crawl := fun _ _ _ _ => ([], [{ anchor_uuid := 0 }]) }

/-- The default configuration used by the concrete runs. -/
def defaultConfig : FluffConfig := {}

/-- The replacement underlying `normalise_newlines`: the regex
`\r\n|\r` scanned left to right with leftmost-first alternation, every
match replaced by a line feed. -/
def normReplace : List Char → List Char
  | [] => []
  | '\r' :: '\n' :: rest => '\n' :: normReplace rest
  | '\r' :: rest => '\n' :: normReplace rest
  | c :: rest => c :: normReplace rest

/-- Method `Linter::normalise_newlines`: canonicalise `\r\n` and lone `\r` to
`\n`. -/
def normalise_newlines (string : String) : String :=
  { data := normReplace string.data }

/-- Modelled from the spec: the templated-file record (`TemplatedFile`, from
the templaters module, outside this source file) carries the rendered text
and the raw-to-rendered position map; `is_templated` reports whether any
templated region is present, which is all `parse_rendered` consults. -/
structure TemplatedFile where
  templated_str : String
  is_templated : Bool
deriving DecidableEq

/-- Modelled from the spec: a lexical unit produced by the lexer
collaborator. Its contents are opaque to the linter module. -/
structure Token where
  raw : String
deriving DecidableEq

/-- The rendered-file envelope (`RenderedFile`) as constructed by
`render_string`. The wall-clock `time_dict` is omitted. -/
structure RenderedFile where
  templated_file : TemplatedFile
  templater_violations : List SQLTemplaterError
  config : FluffConfig
  f_name : String
  encoding : String
  source_str : String
deriving DecidableEq

/-- The per-file parse envelope (`ParsedString`). The wall-clock `time_dict`
is omitted. -/
structure ParsedString (T : Type) where
  tree : Option T
  violations : List SqlError
  templated_file : TemplatedFile
  config : FluffConfig
  f_name : String
  source_str : String

/-- The per-file lint result (`LintedFile`). -/
structure LintedFile (T : Type) where
  tree : T
  templated_file : TemplatedFile
  violations : List SQLLintError

/-- Method `Linter::render_string`: normalise newlines, verify a dialect is
specified, then run the templater. The source hardcodes
`templater_violations` to the empty vector, and its `Err` arm is
`panic!("not implemented")`; the subsequent `templated_file.is_none()`
check is unreachable because the `Ok` arm always sets the file. -/
def render_string
    (process : String → String → FluffConfig → Except SQLFluffUserError TemplatedFile)
    (in_str f_name : String) (config : FluffConfig) (encoding : Option String) :
    Except Panic (Except SQLFluffUserError RenderedFile) :=
  let in_str := normalise_newlines in_str
  match verify_dialect_specified config with
  | some error => Except.ok (Except.error error)
  | none =>
    match process in_str f_name config with
    | Except.ok file =>
      Except.ok (Except.ok
        { templated_file := file
          templater_violations := []
          config := config
          f_name := f_name
          encoding := encoding.getD "UTF-8"
          source_str := f_name })
    | Except.error _s => Except.error (Panic.panicked "not implemented")

/-- Method `Linter::lex_templated_file`: lex the templated file via the lexer
collaborator; a fatal lexer error hits an `unimplemented!()` stub; an empty
token sequence yields no tokens. -/
def lex_templated_file
    (lex : TemplatedFile → Except SQLLexError (List Token × List SQLLexError))
    (templated_file : TemplatedFile) (config : FluffConfig) :
    Except Panic (Option (List Token) × List SQLLexError × FluffConfig) :=
  match lex templated_file with
  | Except.error _err => Except.error (Panic.unimplemented "violations.push(_err)")
  | Except.ok (tokens, lex_vs) =>
    if tokens.isEmpty then Except.ok (none, lex_vs, config)
    else Except.ok (some tokens, lex_vs, config)

/-- Method `Linter::parse_tokens`: run the parser collaborator, converting a parser
error into a recorded violation with no tree. -/
def parse_tokens {T : Type}
    (parserParse : List Token → FluffConfig → Option String → Bool →
      Except SQLParseError (Option T))
    (tokens : List Token) (config : FluffConfig) (f_name : Option String)
    (parse_statistics : Bool) : Option T × List SQLParseError :=
  match parserParse tokens config f_name parse_statistics with
  | Except.ok parsed => (parsed, [])
  | Except.error error => (none, [error])

/-- Method `Linter::parse_rendered`: reject (via `unimplemented!()`) carried
templater violations, lex only when the file is templated (an untemplated
file yields no tokens), reject (via `unimplemented!()`) lexer violations,
then parse when tokens exist. -/
def parse_rendered {T : Type}
    (lex : TemplatedFile → Except SQLLexError (List Token × List SQLLexError))
    (parserParse : List Token → FluffConfig → Option String → Bool →
      Except SQLParseError (Option T))
    (rendered : RenderedFile) (parse_statistics : Bool) :
    Except Panic (ParsedString T) :=
  if !rendered.templater_violations.isEmpty then
    Except.error (Panic.unimplemented "parse_rendered: templater violations")
  else
    let lexed : Except Panic (Option (List Token)) :=
      if rendered.templated_file.is_templated then
        match lex_templated_file lex rendered.templated_file rendered.config with
        | Except.error p => Except.error p
        | Except.ok (t, lvs, _config) =>
          if !lvs.isEmpty then
            Except.error (Panic.unimplemented "violations.extend(lvs)")
          else Except.ok t
      else Except.ok none
    match lexed with
    | Except.error p => Except.error p
    | Except.ok tokens =>
      let parsedAndViolations : Option T × List SqlError :=
        match tokens with
        | some token_list =>
          let parsedPair := parse_tokens parserParse token_list rendered.config
            (some rendered.f_name) parse_statistics
          (parsedPair.1, parsedPair.2.map SQLParseError.intoSqlError)
        | none => (none, [])
      Except.ok
        { tree := parsedAndViolations.1
          violations := parsedAndViolations.2
          templated_file := rendered.templated_file
          config := rendered.config
          f_name := rendered.f_name
          source_str := rendered.source_str }

/-- Method `Linter::parse_string`: default the file name, encoding and statistics
flag, dispatch the template header (which insists on an explicit config when
a formatter is attached), scan the raw file for config commands, render, and
parse the rendered file. -/
def parse_string {T : Type}
    (process : String → String → FluffConfig → Except SQLFluffUserError TemplatedFile)
    (lex : TemplatedFile → Except SQLLexError (List Token × List SQLLexError))
    (parserParse : List Token → FluffConfig → Option String → Bool →
      Except SQLParseError (Option T))
    (processRawFileForConfig : FluffConfig → String → FluffConfig)
    (formatterPresent : Bool) (selfConfig : FluffConfig)
    (in_str : String) (f_name : Option String) (config : Option FluffConfig)
    (encoding : Option String) (parse_statistics : Option Bool) :
    Except Panic (Except SQLFluffUserError (ParsedString T)) :=
  let f_name := f_name.getD "<string>"
  let encoding := encoding.getD "utf-8"
  let parse_statistics := parse_statistics.getD false
  if formatterPresent && config.isNone then
    Except.error (Panic.panicked "config cannot be Option in this case")
  else
    let config' := config.getD selfConfig
    let config' := processRawFileForConfig config' in_str
    match render_string process in_str f_name config' (some encoding) with
    | Except.error p => Except.error p
    | Except.ok (Except.error e) => Except.ok (Except.error e)
    | Except.ok (Except.ok rendered) =>
      match parse_rendered lex parserParse rendered parse_statistics with
      | Except.error p => Except.error p
      | Except.ok parsed => Except.ok (Except.ok parsed)

/-- Method `Linter::lint_parsed`: assert the incoming violation list is empty
(`assert!(violations.is_empty())` panics otherwise), then run the lint-fix
loop when a tree exists; the treeless arm is an `unimplemented!()` stub. -/
def lint_parsed {T : Type}
    (applyFixes : T → Dialect → AnchorEditInfoMap → T × Nat × Nat × Bool)
    (selfConfig : FluffConfig) (parsed_string : ParsedString T)
    (rules : List (ErasedRule T)) (fix : Bool) : Except Panic (LintedFile T) :=
  let violations := parsed_string.violations
  if !violations.isEmpty then Except.error Panic.assertionFailed
  else
    match parsed_string.tree with
    | some tree =>
      let fixed := lint_fix_parsed applyFixes selfConfig tree rules fix
      Except.ok
        { tree := fixed.1
          templated_file := parsed_string.templated_file
          violations := fixed.2 }
    | none => Except.error (Panic.unimplemented "lint_parsed: tree is None")

/-- Method `Linter::lint_string`: parse the (defaulted) input string with the
defaulted config, `.unwrap()` the result (panicking on a user error), then
lint the parsed file. -/
def lint_string {T : Type}
    (process : String → String → FluffConfig → Except SQLFluffUserError TemplatedFile)
    (lex : TemplatedFile → Except SQLLexError (List Token × List SQLLexError))
    (parserParse : List Token → FluffConfig → Option String → Bool →
      Except SQLParseError (Option T))
    (processRawFileForConfig : FluffConfig → String → FluffConfig)
    (applyFixes : T → Dialect → AnchorEditInfoMap → T × Nat × Nat × Bool)
    (formatterPresent : Bool) (selfConfig : FluffConfig)
    (in_str : Option String) (f_name : Option String) ( _fix : Option Bool)
    (config : Option FluffConfig) ( _encoding : Option String)
    (rules : List (ErasedRule T)) (fix : Bool) : Except Panic (LintedFile T) :=
  let defaulted_config := config.getD selfConfig
  match parse_string process lex parserParse processRawFileForConfig
    formatterPresent selfConfig (in_str.getD "") f_name (some defaulted_config)
    none none with
  | Except.error p => Except.error p
  | Except.ok (Except.error _e) =>
    Except.error (Panic.panicked "called unwrap on an Err value")
  | Except.ok (Except.ok parsed) =>
    lint_parsed applyFixes selfConfig parsed rules fix

/-- Modelled from the spec: the raw templater (the default when none is
supplied) renders the text unchanged and introduces no templated regions. -/
def rawTemplaterProcess :
    String → String → FluffConfig → Except SQLFluffUserError TemplatedFile :=
  fun in_str _f_name _config =>
    Except.ok { templated_str := in_str, is_templated := false }

/-- A variant of the raw templater whose output reports itself as templated,
used to show the empty-input behaviour does not depend on that flag. -/
def templatedRawProcess :
    String → String → FluffConfig → Except SQLFluffUserError TemplatedFile :=
  fun in_str _f_name _config =>
    Except.ok { templated_str := in_str, is_templated := true }

/-- Modelled from the spec: the lexer collaborator turns text into a token
sequence; empty rendered text yields an empty token sequence (the spec's
empty-token case) and no lexer violations. -/
def specLex : TemplatedFile → Except SQLLexError (List Token × List SQLLexError) :=
  fun templated_file =>
    if templated_file.templated_str = "" then Except.ok ([], [])
    else Except.ok ([{ raw := templated_file.templated_str }], [])

/-- Modelled from the spec: a parser collaborator that always produces a
tree; it is never reached on the empty-input path. -/
def specParse : List Token → FluffConfig → Option String → Bool →
    Except SQLParseError (Option Nat) :=
  fun _tokens _config _f_name _stats => Except.ok (some 0)

/-- Modelled from the spec: scanning the raw file for inline config commands
leaves the config unchanged when the text contains none (as the empty string
does). -/
def idProcessRawFileForConfig : FluffConfig → String → FluffConfig :=
  fun config _in_str => config

/-- An `apply_fixes` collaborator that never changes the tree; irrelevant to
runs that propose no fixes. -/
def noApplyFixes : Nat → Dialect → AnchorEditInfoMap → Nat × Nat × Nat × Bool :=
  fun tree _ _ => (tree, 0, 0, true)

/-- A parsed file carrying one accumulated parse violation, used to exercise
the `assert!` precondition of `lint_parsed`. -/
def parsedWithViolation : ParsedString Nat :=
  { tree := some 0
    violations := [SqlError.parseErr "unparsable"]
    templated_file := { templated_str := "SELECT", is_templated := false }
    config := defaultConfig
    f_name := "bad.sql"
    source_str := "bad.sql" }

/-- Metadata reported for an existing filesystem entry (`fs::metadata`):
the linter only consults `is_file`. -/
structure FileMeta where
  is_file : Bool
deriving DecidableEq

/-- The filesystem collaborator of `paths_from_path`: metadata lookup,
parent-directory and file-name decomposition of a path, the recursive
`WalkDir` enumeration of a directory (each entry as its parent directory
paired with its file name), and the `helpers::normalize` path
canonicalisation. -/
structure FileSystem where
  metadata : String → Option FileMeta
  parentDir : String → String
  fileName : String → String
  walk : String → List (String × String)
  normalize : String → String

/-- Rust `Path::new(dirpath).join(fname)`. -/
def joinPath (dirpath fname : String) : String :=
  dirpath ++ "/" ++ fname

/-- ASCII lowercasing of one character, the relevant fragment of Rust's
`char::to_lowercase` for file names. -/
def charToLower (c : Char) : Char :=
  if 'A' ≤ c ∧ c ≤ 'Z' then Char.ofNat (c.toNat + 32) else c

/-- Rust `str::to_lowercase`, modelled characterwise. -/
def lowerString (s : String) : String :=
  { data := s.data.map charToLower }

/-- Rust `str::ends_with`, modelled on the character lists. -/
def listEndsWith (s post : List Char) : Bool :=
  decide (post.length ≤ s.length) && (s.drop (s.length - post.length) == post)

/-- Rust `str::ends_with` on strings. -/
def endsWithString (s post : String) : Bool :=
  listEndsWith s.data post.data

/-- Lexicographic comparison of character lists, the order used by
`Vec::sort` on `String`. -/
def charListLe : List Char → List Char → Bool
  | [], _ => true
  | _ :: _, [] => false
  | a :: as, b :: bs => if a == b then charListLe as bs else decide (a < b)

/-- Lexicographic order on strings. -/
def stringLe (a b : String) : Bool :=
  charListLe a.data b.data

/-- The `AHashSet` deduplication applied to the discovered paths before
sorting: keep the first occurrence of each path. -/
def dedupPaths : List String → List String
  | [] => []
  | x :: xs => x :: List.filter (fun y => !(y == x)) (dedupPaths xs)

/-- Insertion into a sorted list of strings. -/
def insertSorted (x : String) : List String → List String
  | [] => [x]
  | y :: ys => if stringLe x y then x :: y :: ys else y :: insertSorted x ys

/-- The final `files.sort()` on the deduplicated paths. -/
def sortStrings (l : List String) : List String :=
  l.foldr insertSorted []

/-- Method `Linter::paths_from_path`: default the options; a missing path panics
unless `ignore_non_existent_files` is set; an exact file contributes the
single `(parent, [file_name])` entry while a directory contributes its
`WalkDir` entries; ignore files are skipped (the `ignores` map the source
builds from them is never consulted afterwards, so it is not modelled);
every other name is pushed once per configured extension its lowercased
form ends with; finally the buffer is normalised, deduplicated and
sorted. The `ignore_file_paths` list is a `TODO` in the source and always
empty. -/
def paths_from_path (fs : FileSystem) (selfConfig : FluffConfig) (path : String)
    (ignore_file_name : Option String) (ignore_non_existent_files : Option Bool)
    (ignore_files : Option Bool) ( _working_path : Option String) :
    Except Panic (List String) :=
  let ignore_file_name := ignore_file_name.getD ".sqlfluffignore"
  let ignore_non_existent_files := ignore_non_existent_files.getD false
  let ignore_files := ignore_files.getD true
  match fs.metadata path with
  | none =>
    if ignore_non_existent_files then Except.ok []
    else Except.error (Panic.panicked "Specified path does not exist")
  | some metadata =>
    let is_exact_file := metadata.is_file
    let path_walk : List (String × List String) :=
      if is_exact_file then [(fs.parentDir path, [fs.fileName path])]
      else (fs.walk path).map (fun entry => (entry.1, [entry.2]))
    let sql_file_exts := selfConfig.sql_file_exts
    let buffer := path_walk.foldl
      (fun buffer entry =>
        let dirpath := entry.1
        entry.2.foldl
          (fun buffer fname =>
            let fpath := joinPath dirpath fname
            if ignore_files && fname == ignore_file_name then buffer
            else
              buffer ++ sql_file_exts.filterMap
                (fun ext =>
                  if endsWithString (lowerString fname) ext then some fpath
                  else none))
          buffer)
      []
    let filtered_buffer := dedupPaths (buffer.map fs.normalize)
    Except.ok (sortStrings filtered_buffer)

/-- A filesystem holding exactly one file, `d/foo.txt`, whose extension is
outside the default configured extension set. -/
def fsTxtOnly : FileSystem :=
  { metadata := fun p => if p == "d/foo.txt" then some { is_file := true } else none
    parentDir := fun _ => "d"
    fileName := fun _ => "foo.txt"
    walk := fun _ => []
    normalize := fun p => p }

/-- A filesystem holding exactly one file, `d/q.sql`, with a matching
extension. -/
def fsSqlOnly : FileSystem :=
  { metadata := fun p => if p == "d/q.sql" then some { is_file := true } else none
    parentDir := fun _ => "d"
    fileName := fun _ => "q.sql"
    walk := fun _ => []
    normalize := fun p => p }

/-- An empty filesystem: every metadata lookup fails. -/
def fsEmpty : FileSystem :=
  { metadata := fun _ => none
    parentDir := fun _ => ""
    fileName := fun _ => ""
    walk := fun _ => []
    normalize := fun p => p }

/-- Carriage returns are never produced by the newline replacement. -/
theorem normReplace_no_cr : ∀ l : List Char, '\r' ∉ normReplace l := by
  intro l
  induction l using normReplace.induct with
  | case1 => simp [normReplace]
  | case2 rest ih => simp [normReplace, ih]
  | case3 rest h ih => simp [normReplace, ih]
  | case4 c rest hc hcr ih =>
    simp [normReplace, ih]
    exact fun hh => hcr hh.symm

/-- C9: newline normalisation maps every `\r\n` and every lone `\r` to
`\n`: on the spec's example it produces exactly the expected string, and no
carriage return survives in any normalised string. -/
theorem normalise_newlines_claim :
    normalise_newlines "SELECT\r\n foo\n FROM \r \n\r bar;"
      = "SELECT\n foo\n FROM \n \n\n bar;"
    ∧ ∀ s : String, '\r' ∉ (normalise_newlines s).data := by
  constructor
  · decide
  · intro s
    exact normReplace_no_cr s.data

/-- C10: `lint_parsed` asserts that the incoming parsed file carries no
accumulated violations; any nonempty violation list trips
`assert!(violations.is_empty())`, a fatal assertion failure. -/
theorem lint_parsed_asserts_no_violations {T : Type}
    (applyFixes : T → Dialect → AnchorEditInfoMap → T × Nat × Nat × Bool)
    (selfConfig : FluffConfig) (parsed_string : ParsedString T)
    (rules : List (ErasedRule T)) (fix : Bool)
    (h : parsed_string.violations ≠ []) :
    lint_parsed applyFixes selfConfig parsed_string rules fix
      = Except.error Panic.assertionFailed := by
  unfold lint_parsed
  cases hv : parsed_string.violations with
  | nil => exact absurd hv h
  | cons a l => simp [hv]

/-- A file that reached linting with one accumulated parse violation makes
`lint_parsed` fail its assertion. -/
theorem lint_parsed_asserts_no_violations_witness :
    parsedWithViolation.violations ≠ []
    ∧ lint_parsed noApplyFixes defaultConfig parsedWithViolation [] false
        = Except.error Panic.assertionFailed :=
  ⟨by decide,
   lint_parsed_asserts_no_violations noApplyFixes defaultConfig parsedWithViolation
     [] false (by decide)⟩

/-- C1: the engine does not discard invalid rewrites. With an `apply_fixes`
collaborator that reports every rewrite as invalid (`is_valid = false`)
while producing the successor tree, and a rule that always proposes a fix,
`lint_fix_parsed` starting from tree `0` returns tree `10`: all ten invalid
main-phase rewrites were adopted, the prior tree was never kept (the
source's validity check is the dead branch `if !true`). -/
theorem lint_fix_adopts_invalid_rewrites :
    lint_fix_parsed invalidApplyFixes defaultConfig 0 [alwaysFixRule] true = (10, [])
    ∧ (lint_fix_parsed invalidApplyFixes defaultConfig 0 [alwaysFixRule] true).1 ≠ 0 := by
  constructor
  · decide
  · decide

/-- C8: `render_string` panics (`panic!("not implemented")`) whenever the
templater produces no rendered output, instead of surfacing a reported
terminal status, and it hardcodes the attached `templater_violations` to
the empty list whenever the templater succeeds, so reported templater
violations are never attached. -/
theorem render_string_ignores_templater_violations :
    render_string (fun _ _ _ => Except.error { message := "templater failure" })
        "SELECT 1" "f.sql" defaultConfig none
      = Except.error (Panic.panicked "not implemented")
    ∧ ∀ tf : TemplatedFile,
        render_string (fun _ _ _ => Except.ok tf) "SELECT 1" "f.sql" defaultConfig none
          = Except.ok (Except.ok
              { templated_file := tf
                templater_violations := []
                config := defaultConfig
                f_name := "f.sql"
                encoding := "UTF-8"
                source_str := "f.sql" }) := by
  constructor
  · rfl
  · intro tf
    rfl

/-- C5: linting the empty string through `lint_string` is a fatal error:
the empty input renders to empty text, which lexes to an empty token
sequence, so no tree is produced, and the treeless arm of `lint_parsed` is
the `unimplemented!()` stub. This holds whether or not the rendered file
reports itself as templated. Parsing alone (`parse_string`) does complete
with zero violations, matching the repository's own empty-file test. -/
theorem lint_string_empty_input_panics :
    lint_string rawTemplaterProcess specLex specParse idProcessRawFileForConfig
        noApplyFixes false defaultConfig (some "") none none none none [] false
      = Except.error (Panic.unimplemented "lint_parsed: tree is None")
    ∧ lint_string templatedRawProcess specLex specParse idProcessRawFileForConfig
        noApplyFixes false defaultConfig (some "") none none none none [] false
      = Except.error (Panic.unimplemented "lint_parsed: tree is None")
    ∧ parse_string rawTemplaterProcess specLex specParse idProcessRawFileForConfig
        false defaultConfig "" none (some defaultConfig) none none
      = Except.ok (Except.ok
          { tree := (none : Option Nat)
            violations := []
            templated_file := { templated_str := "", is_templated := false }
            config := defaultConfig
            f_name := "<string>"
            source_str := "<string>" }) := by
  refine ⟨rfl, rfl, rfl⟩

/-- C7: a path that does not exist on the filesystem is fatal when
`ignore_non_existent_files` is unset or false, and yields an empty result
when the option is set. -/
theorem paths_from_path_nonexistent (fs : FileSystem) (selfConfig : FluffConfig)
    (path : String) (ifn : Option String) (igf : Option Bool) (wp : Option String)
    (h : fs.metadata path = none) :
    paths_from_path fs selfConfig path ifn none igf wp
        = Except.error (Panic.panicked "Specified path does not exist")
    ∧ paths_from_path fs selfConfig path ifn (some false) igf wp
        = Except.error (Panic.panicked "Specified path does not exist")
    ∧ paths_from_path fs selfConfig path ifn (some true) igf wp = Except.ok [] := by
  refine ⟨?_, ?_, ?_⟩ <;> simp [paths_from_path, h]

/-- A concrete missing path: fatal by default, empty result when missing
files are tolerated. -/
theorem paths_from_path_nonexistent_witness :
    fsEmpty.metadata "missing.sql" = none
    ∧ (paths_from_path fsEmpty defaultConfig "missing.sql" none none none none
         = Except.error (Panic.panicked "Specified path does not exist")
       ∧ paths_from_path fsEmpty defaultConfig "missing.sql" none (some false) none none
         = Except.error (Panic.panicked "Specified path does not exist")
       ∧ paths_from_path fsEmpty defaultConfig "missing.sql" none (some true) none none
         = Except.ok []) :=
  ⟨rfl, paths_from_path_nonexistent fsEmpty defaultConfig "missing.sql" none none none rfl⟩

/-- C6 fails on the code: the explicitly passed existing file `d/foo.txt`
is dropped because its extension is outside the configured extension set,
so `paths_from_path` does not return that single file. -/
theorem paths_from_path_exact_file_counterexample :
    paths_from_path fsTxtOnly defaultConfig "d/foo.txt" none none none none
      = Except.ok []
    ∧ paths_from_path fsTxtOnly defaultConfig "d/foo.txt" none none none none
      ≠ Except.ok ["d/foo.txt"] := by
  have h1 : paths_from_path fsTxtOnly defaultConfig "d/foo.txt" none none none none
      = Except.ok [] := rfl
  refine ⟨h1, ?_⟩
  rw [h1]
  simp

/-- Pushing one constant per matching extension produces a replicated
list. -/
theorem filterMap_if_const {α : Type} (p : String → Bool) (c : α) :
    ∀ exts : List String,
      List.filterMap (fun ext => if p ext then some c else none) exts
        = List.replicate (exts.countP p) c := by
  intro exts
  induction exts with
  | nil => rfl
  | cons e es ih =>
    by_cases h : p e = true
    · simp [List.filterMap_cons, h, ih, List.countP_cons, List.replicate_succ,
        Nat.add_comm]
    · simp [List.filterMap_cons, h, ih, List.countP_cons]

/-- Deduplicating a nonempty constant list keeps one copy. -/
theorem dedupPaths_replicate_succ (c : String) :
    ∀ n : Nat, dedupPaths (List.replicate (n + 1) c) = [c] := by
  intro n
  induction n with
  | zero => rfl
  | succ k ih =>
    rw [List.replicate_succ, dedupPaths, ih]
    simp

/-- C6 amended: an explicitly passed existing file (not named like the
ignore file) is returned only when its lowercased name ends with one of the
configured SQL extensions; otherwise the result is empty — the extension
filter applies even to exact file paths. -/
theorem paths_from_path_exact_file_ext_filter (fs : FileSystem)
    (cfg : FluffConfig) (path : String) (m : FileMeta)
    (hm : fs.metadata path = some m) (hf : m.is_file = true)
    (hn : (fs.fileName path == ".sqlfluffignore") = false) :
    paths_from_path fs cfg path none none none none
      = Except.ok
          (if cfg.sql_file_exts.any
              (fun ext => endsWithString (lowerString (fs.fileName path)) ext)
           then [fs.normalize (joinPath (fs.parentDir path) (fs.fileName path))]
           else []) := by
  unfold paths_from_path
  rw [hm]
  simp only [Option.getD_none, Option.getD_some]
  rw [hf]
  simp only [if_true, List.foldl_cons, List.foldl_nil, Bool.true_and, hn,
    Bool.false_eq_true, if_false, List.nil_append]
  rw [filterMap_if_const
    (fun ext => endsWithString (lowerString (fs.fileName path)) ext)
    (joinPath (fs.parentDir path) (fs.fileName path)), List.map_replicate]
  by_cases hany : cfg.sql_file_exts.any
      (fun ext => endsWithString (lowerString (fs.fileName path)) ext) = true
  · rw [if_pos hany]
    have hpos : 0 < cfg.sql_file_exts.countP
        (fun ext => endsWithString (lowerString (fs.fileName path)) ext) := by
      rw [List.countP_pos_iff]
      exact List.any_eq_true.mp hany
    obtain ⟨k, hk⟩ := Nat.exists_eq_add_of_lt hpos
    rw [hk]
    rw [show 0 + k + 1 = k + 1 by omega]
    rw [dedupPaths_replicate_succ]
    rfl
  · rw [if_neg hany]
    have hzero : cfg.sql_file_exts.countP
        (fun ext => endsWithString (lowerString (fs.fileName path)) ext) = 0 := by
      rw [List.countP_eq_zero]
      intro a ha hpa
      exact hany (List.any_eq_true.mpr ⟨a, ha, hpa⟩)
    rw [hzero]
    rfl

/-- An explicitly passed `.sql` file with the default extension set is
returned as the single discovered path. -/
theorem paths_from_path_exact_file_ext_filter_witness :
    paths_from_path fsSqlOnly defaultConfig "d/q.sql" none none none none
      = Except.ok ["d/q.sql"] := by
  rw [paths_from_path_exact_file_ext_filter fsSqlOnly defaultConfig "d/q.sql"
    { is_file := true } rfl rfl (by decide)]
  rfl

/-- When only linting, `lint_fix_parsed` is one `main` pass (cap 1). -/
theorem lint_fix_parsed_false_eq {T : Type}
    (af : T → Dialect → AnchorEditInfoMap → T × Nat × Nat × Bool)
    (cfg : FluffConfig) (tree : T) (rules : List (ErasedRule T)) :
    lint_fix_parsed af cfg tree rules false
      = ((runLoops af ((dialect_selector "ansi").getD ()) cfg false true rules 1 0
            { tree := tree, initial_linting_errors := [] }).tree,
         (runLoops af ((dialect_selector "ansi").getD ()) cfg false true rules 1 0
            { tree := tree, initial_linting_errors := [] }).initial_linting_errors) :=
  rfl

/-- When fixing, `lint_fix_parsed` is the `main` phase (cap 10, phase-first)
followed by the `post` phase (cap 2, not phase-first), each over the rules
declaring that phase. -/
theorem lint_fix_parsed_true_eq {T : Type}
    (af : T → Dialect → AnchorEditInfoMap → T × Nat × Nat × Bool)
    (cfg : FluffConfig) (tree : T) (rules : List (ErasedRule T)) :
    lint_fix_parsed af cfg tree rules true
      = ((runLoops af ((dialect_selector "ansi").getD ()) cfg true false
            (rules.filter (fun rule => rule.lint_phase == "post")) 2 0
            (runLoops af ((dialect_selector "ansi").getD ()) cfg true true
              (rules.filter (fun rule => rule.lint_phase == "main")) 10 0
              { tree := tree, initial_linting_errors := [] })).tree,
         (runLoops af ((dialect_selector "ansi").getD ()) cfg true false
            (rules.filter (fun rule => rule.lint_phase == "post")) 2 0
            (runLoops af ((dialect_selector "ansi").getD ()) cfg true true
              (rules.filter (fun rule => rule.lint_phase == "main")) 10 0
              { tree := tree, initial_linting_errors := [] })).initial_linting_errors) :=
  rfl

/-- A non-first pass rule step leaves the accumulated first-pass errors
unchanged. -/
theorem runPassStep_not_first_errors {T : Type}
    (af : T → Dialect → AnchorEditInfoMap → T × Nat × Nat × Bool)
    (d : Dialect) (cfg : FluffConfig) (fix : Bool) (acc : LoopState T × Bool)
    (rule : ErasedRule T) :
    ((runPassStep af d cfg fix false acc rule).1).initial_linting_errors
      = acc.1.initial_linting_errors := by
  unfold runPassStep
  dsimp only
  split
  · rfl
  · rfl

/-- A non-first pass leaves the accumulated first-pass errors unchanged. -/
theorem runPass_not_first_errors {T : Type}
    (af : T → Dialect → AnchorEditInfoMap → T × Nat × Nat × Bool)
    (d : Dialect) (cfg : FluffConfig) (fix : Bool)
    (rules : List (ErasedRule T)) (st : LoopState T) :
    ((runPass af d cfg fix false rules st).1).initial_linting_errors
      = st.initial_linting_errors := by
  have aux : ∀ (l : List (ErasedRule T)) (acc : LoopState T × Bool),
      ((List.foldl (fun acc rule =>
          if fix && !false && !rule.is_fix_compatible then acc
          else runPassStep af d cfg fix false acc rule) acc l).1).initial_linting_errors
        = acc.1.initial_linting_errors := by
    intro l
    induction l with
    | nil => intro acc; rfl
    | cons r rs ih =>
      intro acc
      rw [List.foldl_cons]
      by_cases h : (fix && !false && !r.is_fix_compatible) = true
      · rw [if_pos h]
        exact ih acc
      · rw [if_neg h, ih, runPassStep_not_first_errors]
  exact aux rules (st, false)

/-- Any phase iteration that is not the very first pass of the run leaves
the accumulated first-pass errors unchanged. -/
theorem runLoops_errors_preserved {T : Type}
    (af : T → Dialect → AnchorEditInfoMap → T × Nat × Nat × Bool)
    (d : Dialect) (cfg : FluffConfig) (fix phase_is_first : Bool)
    (rules : List (ErasedRule T)) :
    ∀ (n loop_ : Nat) (st : LoopState T),
      (phase_is_first && loop_ == 0) = false →
      (runLoops af d cfg fix phase_is_first rules n loop_ st).initial_linting_errors
        = st.initial_linting_errors := by
  intro n
  induction n with
  | zero => intro loop_ st h; rfl
  | succ k ih =>
    intro loop_ st h
    simp only [runLoops, h]
    split
    · exact runPass_not_first_errors af d cfg fix rules st
    · rw [ih (loop_ + 1) _ (by simp), runPass_not_first_errors]

/-- The error output of a phase-first loop is that of its first pass. -/
theorem runLoops_first_pass_errors {T : Type}
    (af : T → Dialect → AnchorEditInfoMap → T × Nat × Nat × Bool)
    (d : Dialect) (cfg : FluffConfig) (fix : Bool)
    (rules : List (ErasedRule T)) (n : Nat) (st : LoopState T) :
    (runLoops af d cfg fix true rules (n + 1) 0 st).initial_linting_errors
      = ((runPass af d cfg fix true rules st).1).initial_linting_errors := by
  simp only [runLoops, beq_self_eq_true, Bool.and_true]
  split
  · rfl
  · rw [runLoops_errors_preserved af d cfg fix true rules n 1 _ (by simp)]

/-- C3: the violation list `lint_fix_parsed` returns is exactly the linting
errors accumulated by the first pass of the run (the `main` phase's first
loop iteration, over the rules active in that phase); crawls from any later
pass of any phase contribute nothing to it. -/
theorem lint_fix_first_pass_only {T : Type}
    (af : T → Dialect → AnchorEditInfoMap → T × Nat × Nat × Bool)
    (cfg : FluffConfig) (tree : T) (rules : List (ErasedRule T)) (fix : Bool) :
    (lint_fix_parsed af cfg tree rules fix).2
      = ((runPass af ((dialect_selector "ansi").getD ()) cfg fix true
            (if fix then rules.filter (fun rule => rule.lint_phase == "main")
             else rules)
            { tree := tree, initial_linting_errors := [] }).1).initial_linting_errors := by
  cases fix with
  | false =>
    rw [lint_fix_parsed_false_eq]
    exact runLoops_first_pass_errors af _ cfg false rules 0 _
  | true =>
    rw [lint_fix_parsed_true_eq]
    dsimp only
    rw [runLoops_errors_preserved af _ cfg true false _ 2 0 _ (by simp)]
    exact runLoops_first_pass_errors af _ cfg true _ 9 _

/-- The instrumented phase loop computes the same state as the plain one. -/
theorem runLoopsCounted_fst {T : Type}
    (af : T → Dialect → AnchorEditInfoMap → T × Nat × Nat × Bool)
    (d : Dialect) (cfg : FluffConfig) (fix pf : Bool)
    (rules : List (ErasedRule T)) :
    ∀ (n loop_ : Nat) (st : LoopState T),
      (runLoopsCounted af d cfg fix pf rules n loop_ st).1
        = runLoops af d cfg fix pf rules n loop_ st := by
  intro n
  induction n with
  | zero => intro loop_ st; rfl
  | succ k ih =>
    intro loop_ st
    simp only [runLoopsCounted, runLoops]
    split
    · rfl
    · exact ih (loop_ + 1) _

/-- The instrumented phase loop never executes more passes than its cap. -/
theorem runLoopsCounted_le {T : Type}
    (af : T → Dialect → AnchorEditInfoMap → T × Nat × Nat × Bool)
    (d : Dialect) (cfg : FluffConfig) (fix pf : Bool)
    (rules : List (ErasedRule T)) :
    ∀ (n loop_ : Nat) (st : LoopState T),
      (runLoopsCounted af d cfg fix pf rules n loop_ st).2 ≤ n := by
  intro n
  induction n with
  | zero => intro loop_ st; exact Nat.le_refl 0
  | succ k ih =>
    intro loop_ st
    simp only [runLoopsCounted]
    split
    · exact Nat.succ_le_succ (Nat.zero_le k)
    · exact Nat.succ_le_succ (ih (loop_ + 1) _)

/-- C2: for every rule set, every tree and every behaviour of the crawl and
`apply_fixes` collaborators, the run executes at most 10 `main`-phase passes
and at most 2 `post`-phase passes, and the loop (a total function) computes
exactly the `lint_fix_parsed` result within those bounds. -/
theorem lint_fix_pass_bounds {T : Type}
    (af : T → Dialect → AnchorEditInfoMap → T × Nat × Nat × Bool)
    (cfg : FluffConfig) (tree : T) (rules : List (ErasedRule T)) (fix : Bool) :
    (lint_fix_parsed_passes af cfg tree rules fix).2.1 ≤ 10
    ∧ (lint_fix_parsed_passes af cfg tree rules fix).2.2 ≤ 2
    ∧ (lint_fix_parsed_passes af cfg tree rules fix).1
        = lint_fix_parsed af cfg tree rules fix := by
  cases fix with
  | false =>
    refine ⟨?_, ?_, ?_⟩
    · simp only [lint_fix_parsed_passes]
      exact Nat.le_trans (runLoopsCounted_le af _ cfg false true rules 1 0 _)
        (by omega)
    · simp only [lint_fix_parsed_passes]
      exact Nat.zero_le 2
    · rw [lint_fix_parsed_false_eq]
      simp [lint_fix_parsed_passes, runLoopsCounted_fst]
  | true =>
    refine ⟨?_, ?_, ?_⟩
    · simp only [lint_fix_parsed_passes]
      exact runLoopsCounted_le af _ cfg true true _ 10 0 _
    · simp only [lint_fix_parsed_passes]
      exact runLoopsCounted_le af _ cfg true false _ 2 0 _
    · rw [lint_fix_parsed_true_eq]
      simp [lint_fix_parsed_passes, runLoopsCounted_fst]

/-- Skipping fix-incompatible rules is the same as folding the un-skipped
step over the invoked-rule list. -/
theorem runPass_skip_filter_aux {T : Type}
    (af : T → Dialect → AnchorEditInfoMap → T × Nat × Nat × Bool)
    (d : Dialect) (cfg : FluffConfig) (fix is_first : Bool) :
    ∀ (rules : List (ErasedRule T)) (acc : LoopState T × Bool),
      List.foldl (fun acc rule =>
          if fix && !is_first && !rule.is_fix_compatible then acc
          else runPassStep af d cfg fix is_first acc rule) acc rules
        = List.foldl (runPassStep af d cfg fix is_first) acc
            (runPassInvoked fix is_first rules) := by
  intro rules
  unfold runPassInvoked
  induction rules with
  | nil => intro acc; rfl
  | cons r rs ih =>
    intro acc
    rw [List.foldl_cons, List.filter_cons]
    cases h : (fix && !is_first && !r.is_fix_compatible) with
    | true =>
      simp only [Bool.not_true, Bool.false_eq_true, if_false, eq_self_iff_true,
        if_true]
      exact ih acc
    | false =>
      simp only [Bool.not_false, Bool.false_eq_true, if_false, eq_self_iff_true,
        if_true]
      rw [List.foldl_cons]
      exact ih _

/-- Function `runPass` equals the un-skipped fold over the invoked rules. -/
theorem runPass_eq_foldl_invoked {T : Type}
    (af : T → Dialect → AnchorEditInfoMap → T × Nat × Nat × Bool)
    (d : Dialect) (cfg : FluffConfig) (fix is_first : Bool)
    (rules : List (ErasedRule T)) (st : LoopState T) :
    runPass af d cfg fix is_first rules st
      = List.foldl (runPassStep af d cfg fix is_first) (st, false)
          (runPassInvoked fix is_first rules) := by
  unfold runPass
  exact runPass_skip_filter_aux af d cfg fix is_first rules (st, false)

/-- C4: when fixing is requested, a pass crawls exactly the rules of
`runPassInvoked`; in the very first pass of the run that is every active
rule of the phase, and in every other pass it is exactly the
fix-compatible rules — fix-incompatible rules are never invoked there. -/
theorem lint_fix_skip_optimisation {T : Type}
    (af : T → Dialect → AnchorEditInfoMap → T × Nat × Nat × Bool)
    (d : Dialect) (cfg : FluffConfig) (is_first_linter_pass : Bool)
    (rules : List (ErasedRule T)) :
    (∀ st : LoopState T,
        runPass af d cfg true is_first_linter_pass rules st
          = List.foldl (runPassStep af d cfg true is_first_linter_pass) (st, false)
              (runPassInvoked true is_first_linter_pass rules))
    ∧ runPassInvoked true true rules = rules
    ∧ runPassInvoked true false rules
        = rules.filter (fun rule => rule.is_fix_compatible) := by
  refine ⟨fun st => runPass_eq_foldl_invoked af d cfg true is_first_linter_pass rules st,
    ?_, ?_⟩
  · unfold runPassInvoked
    simp
  · unfold runPassInvoked
    simp

end Sqruff
